import Mathlib

/-!
Verification development for the motion-sensor lighting controller core:
the restartable countdown timer (src/timer.rs), the fixed-capacity history
buffer (src/buffer.rs) and the fade-trajectory consistency check
(src/light.rs), shallowly embedded in Lean.

Modelling conventions:
- the timer worker loop is embedded twice: as a per-event step function
  (`timerStep`) on the worker's RUNNING/IDLE state, and as a timed run
  function (`runFrom`) that replays a queue of time-stamped signals against
  the worker's wait deadlines (time in abstract ticks, `Nat`);
- machine integers (`u16` color channels) are `Nat`; `f32` arithmetic is
  embedded as exact extended rationals (`F32`: a rational, `nan`, or an
  infinity) with IEEE special-value propagation but no rounding - every
  comparison settled below is robust to `f32` rounding error;
- Rust panics and `expect` are modelled as `Option.none`; `mpsc` send
  failure is modelled by the receiving worker's liveness flag.
-/

/-- Signals that can be sent to a Timer (src/lib.rs, enum SIGNAL). -/
inductive SIGNAL (T : Type) where
  | START : SIGNAL T
  | TERMINATE : SIGNAL T
  | OTHER : T → SIGNAL T
deriving DecidableEq

/-- Actions received in the callback of a Timer (src/lib.rs, enum ACTION). -/
inductive ACTION where
  | START : Bool → ACTION
  | TIMEOUT : ACTION
deriving DecidableEq

/-- The two phases of the worker loop in Timer::new (src/timer.rs):
RUNNING is the outer loop (bounded recv_timeout wait), IDLE is the inner
loop entered after a timeout (unbounded recv wait). -/
inductive Phase where
  | RUNNING : Phase
  | IDLE : Phase
deriving DecidableEq

/-- Worker-visible state: the loop phase plus the shared running flag. -/
structure TimerState where
  phase : Phase
  running : Bool
deriving DecidableEq

/-- State at worker spawn: outer loop, running = true (src/timer.rs:30,41). -/
def initState : TimerState := ⟨Phase.RUNNING, true⟩

/-- One wake-up of the worker: either a signal was received on the channel,
or the bounded wait expired (recv_timeout returned Timeout). -/
inductive Event (T : Type) where
  | recv : SIGNAL T → Event T
  | timeout : Event T
deriving DecidableEq

/-- Result of processing one event: the next state (none when the worker
exits the loop and the thread terminates) and the ACTIONs delivered to the
callback during that processing, in order. -/
structure StepOut where
  next : Option TimerState
  actions : List ACTION
deriving DecidableEq

/-- One iteration of the worker loop of Timer::new (src/timer.rs:41-88).
Outer (RUNNING) loop: START fires the callback with
ACTION::START { restarted: true } and sets running; TERMINATE breaks the
outer loop; OTHER only logs; a recv_timeout expiry fires ACTION::TIMEOUT
and clears running only when the running flag is set, then falls into the
inner loop. Inner (IDLE) loop: START fires
ACTION::START { restarted: false }, sets running and breaks back to the
outer loop; TERMINATE breaks the outer loop; OTHER only logs. recv in the
inner loop never times out, so a timeout event there is a stutter. -/
def timerStep : TimerState → Event String → StepOut
  | ⟨Phase.RUNNING, _⟩, Event.recv SIGNAL.START =>
      ⟨some ⟨Phase.RUNNING, true⟩, [ACTION.START true]⟩
  | ⟨Phase.RUNNING, _⟩, Event.recv SIGNAL.TERMINATE => ⟨none, []⟩
  | ⟨Phase.RUNNING, r⟩, Event.recv (SIGNAL.OTHER _) =>
      ⟨some ⟨Phase.RUNNING, r⟩, []⟩
  | ⟨Phase.RUNNING, r⟩, Event.timeout =>
      if r then ⟨some ⟨Phase.IDLE, false⟩, [ACTION.TIMEOUT]⟩
      else ⟨some ⟨Phase.RUNNING, r⟩, []⟩
  | ⟨Phase.IDLE, _⟩, Event.recv SIGNAL.START =>
      ⟨some ⟨Phase.RUNNING, true⟩, [ACTION.START false]⟩
  | ⟨Phase.IDLE, _⟩, Event.recv SIGNAL.TERMINATE => ⟨none, []⟩
  | ⟨Phase.IDLE, r⟩, Event.recv (SIGNAL.OTHER _) =>
      ⟨some ⟨Phase.IDLE, r⟩, []⟩
  | ⟨Phase.IDLE, r⟩, Event.timeout => ⟨some ⟨Phase.IDLE, r⟩, []⟩

/-- Replay a FIFO queue of signals through the worker, collecting the
ACTIONs delivered to the callback; processing stops when the worker exits
(TERMINATE). Models the single consumer draining the mpsc channel in send
order, with no wait ever expiring in between. -/
def processSignals : TimerState → List (SIGNAL String) → List ACTION
  | _, [] => []
  | st, s :: rest =>
      let out := timerStep st (Event.recv s)
      out.actions ++
        (match out.next with
         | some st' => processSignals st' rest
         | none => [])

/-- Timed replay of the worker loop of Timer::new (src/timer.rs:41-88).
Time is abstract ticks; `now` is the instant the current wait begins and
the queue holds (arrival time, signal) pairs with nondecreasing arrival
times. Each outer-loop iteration calls recv_timeout afresh, so its
deadline is `now + timeout`. A signal arriving by the deadline is
processed at `max t now` (immediately if it was already queued); otherwise
the wait expires at the deadline: when the running flag is set the worker
emits TIMEOUT, clears the flag and blocks in the inner loop, where the
head signal is received at its arrival time `t` (the inner recv has no
deadline); when the flag is clear the expiry is silent and the wait
windows repeat back-to-back until the signal arrives at `t`, still in the
outer loop. An empty queue yields at most the one pending TIMEOUT, after
which the worker blocks forever delivering nothing. -/
def runFrom (timeout : Nat) : Phase → Bool → Nat → List (Nat × SIGNAL String) → List (Nat × ACTION)
  | Phase.RUNNING, running, now, [] =>
      if running then [(now + timeout, ACTION.TIMEOUT)] else []
  | Phase.RUNNING, running, now, (t, s) :: rest =>
      if running ∧ now + timeout < t then
        (now + timeout, ACTION.TIMEOUT) ::
          (match s with
           | SIGNAL.START =>
               (t, ACTION.START false) :: runFrom timeout Phase.RUNNING true t rest
           | SIGNAL.TERMINATE => []
           | SIGNAL.OTHER _ => runFrom timeout Phase.IDLE false t rest)
      else
        (match s with
         | SIGNAL.START =>
             (max t now, ACTION.START true) ::
               runFrom timeout Phase.RUNNING true (max t now) rest
         | SIGNAL.TERMINATE => []
         | SIGNAL.OTHER _ => runFrom timeout Phase.RUNNING running (max t now) rest)
  | Phase.IDLE, _, _, [] => []
  | Phase.IDLE, running, now, (t, s) :: rest =>
      match s with
      | SIGNAL.START =>
          (max t now, ACTION.START false) ::
            runFrom timeout Phase.RUNNING true (max t now) rest
      | SIGNAL.TERMINATE => []
      | SIGNAL.OTHER _ => runFrom timeout Phase.IDLE running (max t now) rest

/-- std mpsc channel send: succeeds while the receiving worker thread is
alive, returns SendError carrying back the unsent signal once the worker
has exited (receiver dropped). -/
def mpscSend (workerAlive : Bool) (s : SIGNAL String) : Except (SIGNAL String) Unit :=
  if workerAlive then Except.ok () else Except.error s

/-- Timer::start (src/timer.rs:101-103): a single non-blocking send of
SIGNAL::START on the channel, never retried. -/
def Timer.start (workerAlive : Bool) : Except (SIGNAL String) Unit :=
  mpscSend workerAlive SIGNAL.START

/-- Timer::signal (src/timer.rs:105-107): a single non-blocking send of an
arbitrary signal on the channel, never retried. -/
def Timer.signal (workerAlive : Bool) (s : SIGNAL String) : Except (SIGNAL String) Unit :=
  mpscSend workerAlive s

/-- FixedBuffer (src/buffer.rs): a fixed array of N slots (here a list
whose well-formedness fixes the length) plus one write cursor. -/
structure FixedBuffer (T : Type) (N : Nat) where
  items : List T
  index : Nat
deriving DecidableEq

/-- The representation invariant the Rust type carries structurally: the
array has exactly N slots and the cursor points into it. -/
def FixedBuffer.wf {T : Type} {N : Nat} (b : FixedBuffer T N) : Prop :=
  b.items.length = N ∧ b.index < N

instance {T : Type} {N : Nat} (b : FixedBuffer T N) : Decidable b.wf := by
  unfold FixedBuffer.wf; infer_instance

/-- FixedBuffer::push (src/buffer.rs:14-21): write at the cursor, then move
the cursor down one slot, wrapping from 0 to N - 1. -/
def FixedBuffer.push {T : Type} {N : Nat} (b : FixedBuffer T N) (v : T) : FixedBuffer T N :=
  ⟨b.items.set b.index v, if b.index = 0 then N - 1 else b.index - 1⟩

/-- FixedBuffer::get (src/buffer.rs:23-28): None for index ≥ N, otherwise
the slot at (cursor + 1 + index) mod N. -/
def FixedBuffer.get {T : Type} {N : Nat} (b : FixedBuffer T N) (i : Nat) : Option T :=
  if N ≤ i then none else b.items[(b.index + 1 + i) % N]?

/-- Index for FixedBuffer (src/buffer.rs:39-45): get(i).expect(..); the
out-of-bounds panic is modelled as none. -/
def FixedBuffer.indexAt {T : Type} {N : Nat} (b : FixedBuffer T N) (i : Nat) : Option T :=
  b.get i

/-- Default for FixedBuffer (src/buffer.rs:30-38): all slots hold T's
default value, cursor at N - 1. -/
def FixedBuffer.mkDefault (T : Type) (N : Nat) [Inhabited T] : FixedBuffer T N :=
  ⟨List.replicate N default, N - 1⟩

/-- A sequence of pushes, oldest first. -/
def FixedBuffer.pushAll {T : Type} {N : Nat} (b : FixedBuffer T N) (vs : List T) : FixedBuffer T N :=
  vs.foldl FixedBuffer.push b

/-- HSBK color (lifx_core::HSBK): four u16 channels, embedded as Nat. -/
structure HSBK where
  hue : Nat
  saturation : Nat
  brightness : Nat
  kelvin : Nat
deriving DecidableEq

/-- An f32 value as used by matches_fade: an exact rational, NaN, or an
infinity. The inputs of matches_fade (u16 channels, whole-second
durations) and its intermediate values are exactly representable, so the
embedding tracks IEEE special-value propagation exactly and drops only
rounding, which none of the comparisons below is close enough to feel. -/
inductive F32 where
  | nan : F32
  | inf : F32
  | ninf : F32
  | fin : ℚ → F32
deriving DecidableEq

/-- f32 addition (special values propagate; inf + -inf = NaN). -/
def F32.add : F32 → F32 → F32
  | F32.nan, _ => F32.nan
  | _, F32.nan => F32.nan
  | F32.inf, F32.ninf => F32.nan
  | F32.ninf, F32.inf => F32.nan
  | F32.inf, _ => F32.inf
  | _, F32.inf => F32.inf
  | F32.ninf, _ => F32.ninf
  | _, F32.ninf => F32.ninf
  | F32.fin a, F32.fin b => F32.fin (a + b)

/-- f32 subtraction (special values propagate; inf - inf = NaN). -/
def F32.sub : F32 → F32 → F32
  | F32.nan, _ => F32.nan
  | _, F32.nan => F32.nan
  | F32.inf, F32.inf => F32.nan
  | F32.ninf, F32.ninf => F32.nan
  | F32.inf, _ => F32.inf
  | _, F32.inf => F32.ninf
  | F32.ninf, _ => F32.ninf
  | _, F32.ninf => F32.inf
  | F32.fin a, F32.fin b => F32.fin (a - b)

/-- f32 multiplication (NaN propagates; inf * 0 = NaN). -/
def F32.mul : F32 → F32 → F32
  | F32.nan, _ => F32.nan
  | _, F32.nan => F32.nan
  | F32.inf, F32.inf => F32.inf
  | F32.inf, F32.ninf => F32.ninf
  | F32.ninf, F32.inf => F32.ninf
  | F32.ninf, F32.ninf => F32.inf
  | F32.inf, F32.fin b => if 0 < b then F32.inf else if b < 0 then F32.ninf else F32.nan
  | F32.fin a, F32.inf => if 0 < a then F32.inf else if a < 0 then F32.ninf else F32.nan
  | F32.ninf, F32.fin b => if 0 < b then F32.ninf else if b < 0 then F32.inf else F32.nan
  | F32.fin a, F32.ninf => if 0 < a then F32.ninf else if a < 0 then F32.inf else F32.nan
  | F32.fin a, F32.fin b => F32.fin (a * b)

/-- f32 division (NaN propagates; x/0 is a signed infinity for x ≠ 0 and
NaN for x = 0; inf/inf = NaN; finite/inf = 0). -/
def F32.div : F32 → F32 → F32
  | F32.nan, _ => F32.nan
  | _, F32.nan => F32.nan
  | F32.inf, F32.inf => F32.nan
  | F32.inf, F32.ninf => F32.nan
  | F32.ninf, F32.inf => F32.nan
  | F32.ninf, F32.ninf => F32.nan
  | F32.inf, F32.fin b => if b < 0 then F32.ninf else F32.inf
  | F32.ninf, F32.fin b => if b < 0 then F32.inf else F32.ninf
  | F32.fin _, F32.inf => F32.fin 0
  | F32.fin _, F32.ninf => F32.fin 0
  | F32.fin a, F32.fin b =>
      if b = 0 then
        (if 0 < a then F32.inf else if a < 0 then F32.ninf else F32.nan)
      else F32.fin (a / b)

/-- f32 abs. -/
def F32.abs : F32 → F32
  | F32.nan => F32.nan
  | F32.inf => F32.inf
  | F32.ninf => F32.inf
  | F32.fin a => F32.fin |a|

/-- f32 ≤ as a Bool: any comparison with NaN is false. -/
def F32.le : F32 → F32 → Bool
  | F32.nan, _ => false
  | _, F32.nan => false
  | F32.ninf, _ => true
  | _, F32.inf => true
  | F32.inf, _ => false
  | F32.fin _, F32.ninf => false
  | F32.fin a, F32.fin b => a ≤ b

/-- f32::clamp(0.0, 1.0): below 0 gives 0, above 1 gives 1, NaN stays NaN
(min ≤ max holds, so the clamp never panics). -/
def F32.clamp01 : F32 → F32
  | F32.nan => F32.nan
  | F32.inf => F32.fin 1
  | F32.ninf => F32.fin 0
  | F32.fin a => if a < 0 then F32.fin 0 else if 1 < a then F32.fin 1 else F32.fin a

/-- MATCHING_THRESHOLD (src/lib.rs:38): 0.05, i.e. 5%. -/
def MATCHING_THRESHOLD : F32 := F32.fin (1 / 20)

/-- Elapsed-time fraction in matches_fade (src/light.rs:118): the two
Duration::as_secs_f32 values (exact rationals in seconds) divided, clamped
to [0, 1]. -/
def perc_of (fading_time fading_target : ℚ) : F32 :=
  F32.clamp01 (F32.div (F32.fin fading_time) (F32.fin fading_target))

/-- Per-channel interpolated value in matches_fade (src/light.rs:120-121
and the three analogous blocks): before + (target - before) * perc. -/
def channel_should (before target : Nat) (perc : F32) : F32 :=
  F32.add (F32.fin before) (F32.mul (F32.sub (F32.fin target) (F32.fin before)) perc)

/-- Per-channel deviation in matches_fade (src/light.rs:120-126 and the
three analogous blocks): 0 when the channel's swing is zero, otherwise
the distance of the observed value from the interpolated value as a
fraction of the swing. -/
def channel_diveation (before target current : Nat) (perc : F32) : F32 :=
  let diff := F32.sub (F32.fin target) (F32.fin before)
  if diff = F32.fin 0 then F32.fin 0
  else F32.div (F32.abs (F32.sub (channel_should before target perc) (F32.fin current))) (F32.abs diff)

/-- matches_fade (src/light.rs:106-160): true when the current color
equals the target exactly, otherwise true iff all four per-channel
deviations are at most MATCHING_THRESHOLD. Durations are rational
seconds. -/
def matches_fade (before_color target_color current_color : HSBK)
    (fading_time fading_target : ℚ) : Bool :=
  if current_color = target_color then true
  else
    let perc := perc_of fading_time fading_target
    [channel_diveation before_color.hue target_color.hue current_color.hue perc,
     channel_diveation before_color.saturation target_color.saturation current_color.saturation perc,
     channel_diveation before_color.brightness target_color.brightness current_color.brightness perc,
     channel_diveation before_color.kelvin target_color.kelvin current_color.kelvin perc].all
      (fun e => F32.le e MATCHING_THRESHOLD)

theorem FixedBuffer.wf_push {T : Type} {N : Nat} (b : FixedBuffer T N) (v : T)
    (h : b.wf) : (b.push v).wf := by
  obtain ⟨hl, hi⟩ := h
  refine ⟨by simpa [FixedBuffer.push] using hl, ?_⟩
  simp only [FixedBuffer.push]
  split <;> omega

theorem FixedBuffer.wf_pushAll {T : Type} {N : Nat} (b : FixedBuffer T N) (vs : List T)
    (h : b.wf) : (b.pushAll vs).wf := by
  induction vs generalizing b with
  | nil => exact h
  | cons v vs ih =>
      simp only [FixedBuffer.pushAll, List.foldl_cons] at *
      exact ih _ (FixedBuffer.wf_push b v h)

theorem FixedBuffer.pushAll_cons {T : Type} {N : Nat} (b : FixedBuffer T N) (v : T) (vs : List T) :
    b.pushAll (v :: vs) = (b.push v).pushAll vs := rfl

theorem FixedBuffer.get_push_zero {T : Type} {N : Nat} (b : FixedBuffer T N) (v : T)
    (h : b.wf) : (b.push v).get 0 = some v := by
  obtain ⟨hl, hi⟩ := h
  have hN : 0 < N := Nat.lt_of_le_of_lt (Nat.zero_le _) hi
  show (if N ≤ 0 then none
    else (b.items.set b.index v)[((if b.index = 0 then N - 1 else b.index - 1) + 1 + 0) % N]?) = some v
  rw [if_neg (by omega)]
  have harg : ((if b.index = 0 then N - 1 else b.index - 1) + 1 + 0) % N = b.index := by
    by_cases h0 : b.index = 0
    · rw [if_pos h0, h0, show N - 1 + 1 + 0 = N by omega, Nat.mod_self]
    · rw [if_neg h0, show b.index - 1 + 1 + 0 = b.index by omega, Nat.mod_eq_of_lt hi]
  rw [harg]
  exact List.getElem?_set_eq_of_lt v (by omega)

theorem FixedBuffer.get_push_succ {T : Type} {N : Nat} (b : FixedBuffer T N) (v : T) (i : Nat)
    (h : b.wf) (hi : i + 1 < N) : (b.push v).get (i + 1) = b.get i := by
  obtain ⟨hl, hidx⟩ := h
  have hneq : b.index ≠ (b.index + 1 + i) % N := by
    rcases Nat.lt_or_ge (b.index + 1 + i) N with hc | hc
    · rw [Nat.mod_eq_of_lt hc]
      omega
    · rw [Nat.mod_eq_sub_mod hc, Nat.mod_eq_of_lt (by omega)]
      omega
  have harg : ((if b.index = 0 then N - 1 else b.index - 1) + 1 + (i + 1)) % N
      = (b.index + 1 + i) % N := by
    by_cases h0 : b.index = 0
    · rw [if_pos h0, h0, show N - 1 + 1 + (i + 1) = N + (i + 1) by omega, Nat.add_mod_left]
      congr 1
      omega
    · rw [if_neg h0]
      congr 1
      omega
  show (if N ≤ i + 1 then none
      else (b.items.set b.index v)[((if b.index = 0 then N - 1 else b.index - 1) + 1 + (i + 1)) % N]?)
    = if N ≤ i then none else b.items[(b.index + 1 + i) % N]?
  rw [if_neg (show ¬ N ≤ i + 1 by omega), harg, if_neg (show ¬ N ≤ i by omega)]
  exact List.getElem?_set_ne hneq

theorem FixedBuffer.get_pushAll {T : Type} {N : Nat} (b : FixedBuffer T N) (vs : List T)
    (h : b.wf) (i : Nat) (hiN : i < N) :
    (b.pushAll vs).get i =
      if i < vs.length then vs.reverse[i]? else b.get (i - vs.length) := by
  induction vs generalizing b i with
  | nil => simp [FixedBuffer.pushAll]
  | cons v vs ih =>
      rw [FixedBuffer.pushAll_cons, ih (b.push v) (FixedBuffer.wf_push b v h) i hiN]
      by_cases h1 : i < vs.length
      · rw [if_pos h1, if_pos (by simp; omega), List.reverse_cons,
          List.getElem?_append_left (by simpa using h1)]
      · push_neg at h1
        by_cases h2 : i = vs.length
        · subst h2
          rw [if_neg (by omega), if_pos (by simp), Nat.sub_self,
            FixedBuffer.get_push_zero b v h, List.reverse_cons,
            List.getElem?_append_right (by simp), List.length_reverse, Nat.sub_self]
          rfl
        · have h3 : vs.length < i := by omega
          rw [if_neg (by omega), if_neg (by simp; omega)]
          have harg : i - vs.length = (i - (vs.length + 1)) + 1 := by omega
          rw [harg, FixedBuffer.get_push_succ b v _ h (by omega)]
          congr 1

/-- Claim C1: a Start processed in the RUNNING state emits exactly one
Started action with restarted = true and the worker stays RUNNING; the
first Start processed in the IDLE state (entered by a TimedOut, which
leaves the worker at ⟨IDLE, false⟩) emits exactly one Started action with
restarted = false and moves the worker back to RUNNING, so subsequent
Starts before another timeout again emit restarted = true — as the
concrete replay from the post-timeout state shows. -/
theorem c1_start_semantics : ∀ r : Bool,
    timerStep ⟨Phase.RUNNING, r⟩ (Event.recv SIGNAL.START)
      = ⟨some ⟨Phase.RUNNING, true⟩, [ACTION.START true]⟩
  ∧ timerStep ⟨Phase.IDLE, r⟩ (Event.recv SIGNAL.START)
      = ⟨some ⟨Phase.RUNNING, true⟩, [ACTION.START false]⟩
  ∧ processSignals ⟨Phase.IDLE, false⟩ [SIGNAL.START, SIGNAL.START, SIGNAL.START]
      = [ACTION.START false, ACTION.START true, ACTION.START true] := by
  decide

/-- Claim C2: a wait expiring in the RUNNING state (where the running flag
is set) emits exactly one TimedOut, clears the running flag and moves the
worker to IDLE; in the IDLE state no event whatsoever can emit a TimedOut
(a Start is the only way out); concretely, a worker with timeout 100 and
no signals ever sent delivers exactly one TimedOut, at time 100, and
nothing further. -/
theorem c2_timeout_once :
    timerStep ⟨Phase.RUNNING, true⟩ Event.timeout
      = ⟨some ⟨Phase.IDLE, false⟩, [ACTION.TIMEOUT]⟩
  ∧ (∀ (r : Bool) (ev : Event String),
      ACTION.TIMEOUT ∉ (timerStep ⟨Phase.IDLE, r⟩ ev).actions)
  ∧ runFrom 100 Phase.RUNNING true 0 [] = [(100, ACTION.TIMEOUT)] := by
  refine ⟨rfl, ?_, by decide⟩
  intro r ev
  cases ev with
  | recv s => cases s <;> simp [timerStep]
  | timeout => simp [timerStep]

/-- Claim C3 counterexample: the claim says a Custom signal received in the
RUNNING state leaves the countdown toward TimedOut unaffected. It does
not: the worker loop re-enters recv_timeout with the full timeout after
processing the Custom signal. With timeout 100 and a single Custom signal
arriving at time 50, the TimedOut fires at time 150, not at the original
deadline 100 — the trace differs from the no-signal trace. -/
theorem c3_custom_counterexample :
    runFrom 100 Phase.RUNNING true 0 [(50, SIGNAL.OTHER "x")] = [(150, ACTION.TIMEOUT)]
  ∧ runFrom 100 Phase.RUNNING true 0 [] = [(100, ACTION.TIMEOUT)]
  ∧ runFrom 100 Phase.RUNNING true 0 [(50, SIGNAL.OTHER "x")]
      ≠ runFrom 100 Phase.RUNNING true 0 [] := by
  refine ⟨by decide, by decide, by decide⟩

/-- Claim C3 (amended): processing a Custom signal in either state causes
no state transition and no Action, but in the RUNNING state the bounded
wait re-enters afterwards, so the countdown toward TimedOut restarts from
the Custom signal's arrival: a lone Custom signal arriving at time t
within the current window makes the TimedOut fire at t + timeout. -/
theorem c3_custom_amended :
    (∀ (r : Bool) (msg : String),
        timerStep ⟨Phase.RUNNING, r⟩ (Event.recv (SIGNAL.OTHER msg))
          = ⟨some ⟨Phase.RUNNING, r⟩, []⟩
      ∧ timerStep ⟨Phase.IDLE, r⟩ (Event.recv (SIGNAL.OTHER msg))
          = ⟨some ⟨Phase.IDLE, r⟩, []⟩)
  ∧ (∀ (timeout now t : Nat) (msg : String), now ≤ t → t ≤ now + timeout →
        runFrom timeout Phase.RUNNING true now [(t, SIGNAL.OTHER msg)]
          = [(t + timeout, ACTION.TIMEOUT)]) := by
  constructor
  · intro r msg
    exact ⟨rfl, rfl⟩
  · intro timeout now t msg h1 h2
    simp [runFrom, Nat.not_lt.mpr h2, Nat.max_eq_left h1]

/-- Witness for the amended claim C3 at timeout 100, arrival 50. -/
theorem c3_custom_amended_witness :
    (0 : Nat) ≤ 50 ∧ 50 ≤ 0 + 100
  ∧ runFrom 100 Phase.RUNNING true 0 [(50, SIGNAL.OTHER "x")]
      = [(50 + 100, ACTION.TIMEOUT)] :=
  ⟨by decide, by decide, c3_custom_amended.2 100 0 50 "x" (by decide) (by decide)⟩

/-- Claim C4: destroy() enqueues a Terminate behind all previously sent
signals; the worker drains the queue in FIFO order, so every signal
enqueued before the Terminate is processed with its callback invocations,
and no Action is delivered once the Terminate is reached — even for
signals somehow queued after it. -/
theorem c4_destroy_fifo (st : TimerState) (sigs more : List (SIGNAL String))
    (h : SIGNAL.TERMINATE ∉ sigs) :
    processSignals st (sigs ++ SIGNAL.TERMINATE :: more) = processSignals st sigs := by
  induction sigs generalizing st with
  | nil =>
      obtain ⟨p, r⟩ := st
      cases p <;> simp [processSignals, timerStep]
  | cons s rest ih =>
      simp only [List.mem_cons, not_or] at h
      obtain ⟨p, r⟩ := st
      cases p <;> cases s <;>
        simp [processSignals, timerStep, ih _ h.2]

/-- Witness for claim C4: two signals then destroy, with a Start queued
after the Terminate. -/
theorem c4_destroy_fifo_witness :
    SIGNAL.TERMINATE ∉ ([SIGNAL.START, SIGNAL.OTHER "m"] : List (SIGNAL String))
  ∧ processSignals initState
      (([SIGNAL.START, SIGNAL.OTHER "m"] : List (SIGNAL String))
        ++ SIGNAL.TERMINATE :: [SIGNAL.START])
    = processSignals initState [SIGNAL.START, SIGNAL.OTHER "m"] :=
  ⟨by decide, c4_destroy_fifo initState [SIGNAL.START, SIGNAL.OTHER "m"] [SIGNAL.START] (by decide)⟩

/-- Claim C9: start() and signal() are single non-blocking channel sends:
they return Ok while the worker thread is alive and, once the worker has
exited, every call returns the distinct send-failure value carrying the
unsent signal; nothing is retried (the model is one send, not a loop). -/
theorem c9_send_results :
    Timer.start true = Except.ok ()
  ∧ Timer.start false = Except.error SIGNAL.START
  ∧ (∀ s : SIGNAL String,
      Timer.signal true s = Except.ok () ∧ Timer.signal false s = Except.error s) :=
  ⟨rfl, rfl, fun _ => ⟨rfl, rfl⟩⟩

/-- Claim C5: for any well-formed FixedBuffer (the invariant forces N ≥ 1)
and any push sequence of length k ≥ 1, get(i) for i < min(k, N) returns
the value pushed i steps before the most recent push — the i-th element of
the reversed push sequence, so get(0) is the most recent value, repeats
included, and for k > N the indices [0, N) yield exactly the last N pushed
values most-recent-first; earlier values are unrecoverable since every
slot outside that window holds one of the last N values. -/
theorem c5_history_reads {T : Type} {N : Nat} (b : FixedBuffer T N) (vs : List T)
    (hwf : b.wf) (_hk : 1 ≤ vs.length) (i : Nat) (hi : i < min vs.length N) :
    (b.pushAll vs).get i = vs.reverse[i]? := by
  have h := FixedBuffer.get_pushAll b vs hwf i (lt_of_lt_of_le hi (min_le_right _ _))
  rwa [if_pos (lt_of_lt_of_le hi (min_le_left _ _))] at h

/-- Witness for claim C5: capacity 2, pushes [1, 2, 3], read index 1. -/
theorem c5_history_reads_witness :
    (FixedBuffer.mkDefault Nat 2).wf
  ∧ 1 ≤ [1, 2, 3].length
  ∧ 1 < min [1, 2, 3].length 2
  ∧ ((FixedBuffer.mkDefault Nat 2).pushAll [1, 2, 3]).get 1 = [1, 2, 3].reverse[1]? :=
  ⟨by decide, by decide, by decide,
    c5_history_reads (FixedBuffer.mkDefault Nat 2) [1, 2, 3] (by decide) (by decide) 1 (by decide)⟩

/-- Claim C6: on a well-formed buffer, get(i) returns none exactly for
i ≥ N and never fails, while indexed access (modelled by indexAt, where
the expect-panic is none) agrees with get on i < N, where both return a
value, and "panics" (is none) for i ≥ N. -/
theorem c6_get_vs_index {T : Type} {N : Nat} (b : FixedBuffer T N) (i : Nat)
    (hwf : b.wf) :
    (N ≤ i → b.get i = none ∧ b.indexAt i = none)
  ∧ (i < N → ∃ v, b.get i = some v ∧ b.indexAt i = some v) := by
  obtain ⟨hl, hidx⟩ := hwf
  constructor
  · intro h
    have : b.get i = none := by simp [FixedBuffer.get, if_pos h]
    exact ⟨this, this⟩
  · intro h
    have hN : 0 < N := Nat.lt_of_le_of_lt (Nat.zero_le _) h
    have hpos : (b.index + 1 + i) % N < b.items.length := by
      rw [hl]
      exact Nat.mod_lt _ hN
    cases hv : b.items[(b.index + 1 + i) % N]? with
    | none =>
        rw [List.getElem?_eq_none_iff] at hv
        omega
    | some v =>
        have : b.get i = some v := by
          simp [FixedBuffer.get, if_neg (Nat.not_le.mpr h), hv]
        exact ⟨v, this, this⟩

/-- Witness for claim C6: capacity 3 default buffer, read index 5. -/
theorem c6_get_vs_index_witness :
    (FixedBuffer.mkDefault Nat 3).wf
  ∧ ((3 ≤ 5 → (FixedBuffer.mkDefault Nat 3).get 5 = none
        ∧ (FixedBuffer.mkDefault Nat 3).indexAt 5 = none)
     ∧ (5 < 3 → ∃ v, (FixedBuffer.mkDefault Nat 3).get 5 = some v
        ∧ (FixedBuffer.mkDefault Nat 3).indexAt 5 = some v)) :=
  ⟨by decide, c6_get_vs_index (FixedBuffer.mkDefault Nat 3) 5 (by decide)⟩

/-- Claim C7: matches_fade returns true whenever the observed current
color equals the target exactly — the first check in the function — for
every before color and all elapsed/total durations; in particular with
before = current = target. -/
theorem c7_exact_target_matches :
    ∀ (b t C : HSBK) (time total : ℚ),
      matches_fade b t t time total = true ∧ matches_fade C C C time total = true := by
  intro b t C time total
  constructor <;> simp [matches_fade]

/-- Claim C8: when the current color differs from the target, matches_fade
returns true iff all four per-channel deviations (distance of the observed
channel from the linear interpolation before + swing * clamped progress,
as a fraction of the swing, 0 for zero swing) are at most the fixed 5%
tolerance; on the concrete scenario before all-zero, target all-0xFFFF,
current all-0x7FFF, kelvin fixed at 3500, total 10 s, it matches at
elapsed 5 s and fails at elapsed 8 s. -/
theorem c8_deviation_check :
    matches_fade ⟨0, 0, 0, 3500⟩ ⟨0xFFFF, 0xFFFF, 0xFFFF, 3500⟩
      ⟨0x7FFF, 0x7FFF, 0x7FFF, 3500⟩ 5 10 = true
  ∧ matches_fade ⟨0, 0, 0, 3500⟩ ⟨0xFFFF, 0xFFFF, 0xFFFF, 3500⟩
      ⟨0x7FFF, 0x7FFF, 0x7FFF, 3500⟩ 8 10 = false
  ∧ (∀ (b t c : HSBK) (ti total : ℚ), c ≠ t →
      (matches_fade b t c ti total = true ↔
        (F32.le (channel_diveation b.hue t.hue c.hue (perc_of ti total))
            MATCHING_THRESHOLD = true
       ∧ F32.le (channel_diveation b.saturation t.saturation c.saturation (perc_of ti total))
            MATCHING_THRESHOLD = true
       ∧ F32.le (channel_diveation b.brightness t.brightness c.brightness (perc_of ti total))
            MATCHING_THRESHOLD = true
       ∧ F32.le (channel_diveation b.kelvin t.kelvin c.kelvin (perc_of ti total))
            MATCHING_THRESHOLD = true))) := by
  refine ⟨?_, ?_, ?_⟩
  · norm_num [matches_fade, channel_diveation, channel_should, perc_of, MATCHING_THRESHOLD,
      F32.div, F32.clamp01, F32.add, F32.sub, F32.mul, F32.abs, F32.le]
    rw [abs_of_nonneg (by norm_num : (0:ℚ) ≤ 1/2)]
    norm_num
  · norm_num [matches_fade, channel_diveation, channel_should, perc_of, MATCHING_THRESHOLD,
      F32.div, F32.clamp01, F32.add, F32.sub, F32.mul, F32.abs, F32.le]
  · intro b t c ti total hne
    simp [matches_fade, hne]

/-- Witness for claim C8 at the concrete 50%-progress scenario. -/
theorem c8_deviation_check_witness :
    (⟨0x7FFF, 0x7FFF, 0x7FFF, 3500⟩ : HSBK) ≠ ⟨0xFFFF, 0xFFFF, 0xFFFF, 3500⟩
  ∧ (matches_fade ⟨0, 0, 0, 3500⟩ ⟨0xFFFF, 0xFFFF, 0xFFFF, 3500⟩
        ⟨0x7FFF, 0x7FFF, 0x7FFF, 3500⟩ 5 10 = true ↔
      (F32.le (channel_diveation (HSBK.hue ⟨0, 0, 0, 3500⟩) (HSBK.hue ⟨0xFFFF, 0xFFFF, 0xFFFF, 3500⟩)
          (HSBK.hue ⟨0x7FFF, 0x7FFF, 0x7FFF, 3500⟩) (perc_of 5 10)) MATCHING_THRESHOLD = true
     ∧ F32.le (channel_diveation (HSBK.saturation ⟨0, 0, 0, 3500⟩) (HSBK.saturation ⟨0xFFFF, 0xFFFF, 0xFFFF, 3500⟩)
          (HSBK.saturation ⟨0x7FFF, 0x7FFF, 0x7FFF, 3500⟩) (perc_of 5 10)) MATCHING_THRESHOLD = true
     ∧ F32.le (channel_diveation (HSBK.brightness ⟨0, 0, 0, 3500⟩) (HSBK.brightness ⟨0xFFFF, 0xFFFF, 0xFFFF, 3500⟩)
          (HSBK.brightness ⟨0x7FFF, 0x7FFF, 0x7FFF, 3500⟩) (perc_of 5 10)) MATCHING_THRESHOLD = true
     ∧ F32.le (channel_diveation (HSBK.kelvin ⟨0, 0, 0, 3500⟩) (HSBK.kelvin ⟨0xFFFF, 0xFFFF, 0xFFFF, 3500⟩)
          (HSBK.kelvin ⟨0x7FFF, 0x7FFF, 0x7FFF, 3500⟩) (perc_of 5 10)) MATCHING_THRESHOLD = true)) :=
  ⟨by decide,
    c8_deviation_check.2.2 ⟨0, 0, 0, 3500⟩ ⟨0xFFFF, 0xFFFF, 0xFFFF, 3500⟩
      ⟨0x7FFF, 0x7FFF, 0x7FFF, 3500⟩ 5 10 (by decide)⟩

/-- Claim C10 counterexample: the claim says that with both durations zero
matches_fade returns false unless current equals target. But the zero-swing
guard fires before any NaN arises: with before = target = (0,0,0,3500) and
current = (1,0,0,3500) every channel has zero swing, every deviation is 0,
and the function returns true although current differs from target. -/
theorem c10_zero_duration_counterexample :
    matches_fade ⟨0, 0, 0, 3500⟩ ⟨0, 0, 0, 3500⟩ ⟨1, 0, 0, 3500⟩ 0 0 = true
  ∧ (⟨1, 0, 0, 3500⟩ : HSBK) ≠ ⟨0, 0, 0, 3500⟩ := by
  constructor
  · norm_num [matches_fade, channel_diveation, channel_should, perc_of, MATCHING_THRESHOLD,
      F32.div, F32.clamp01, F32.add, F32.sub, F32.mul, F32.abs, F32.le]
  · decide

theorem channel_diveation_nan_le_iff (b t c : Nat) :
    F32.le (channel_diveation b t c F32.nan) MATCHING_THRESHOLD = true ↔ t = b := by
  by_cases h : (t : ℚ) - (b : ℚ) = 0
  · have ht : t = b := by exact_mod_cast sub_eq_zero.mp h
    subst ht
    simp [channel_diveation, F32.sub, F32.le, MATCHING_THRESHOLD]
  · have ht : t ≠ b := by
      intro he
      rw [he] at h
      exact h (sub_self _)
    simp [channel_diveation, F32.sub, F32.fin.injEq, h, channel_should, F32.mul, F32.add,
      F32.abs, F32.div, F32.le, ht]

/-- Claim C10 (amended): matches_fade is total; with fading_target zero and
fading_time positive the raw progress is +infinity, which clamps to 1, so
each channel's interpolated value equals the target; with both durations
zero the progress is NaN, making the deviation NaN exactly on channels
with nonzero swing and 0 on zero-swing channels, so the function returns
true iff current equals target or before equals target (all swings zero),
and false otherwise. -/
theorem c10_zero_duration_amended :
    (∀ q : ℚ, 0 < q → perc_of q 0 = F32.fin 1)
  ∧ (∀ before target : Nat, channel_should before target (F32.fin 1) = F32.fin target)
  ∧ (∀ b t c : HSBK, matches_fade b t c 0 0 = true ↔ (c = t ∨ b = t)) := by
  refine ⟨?_, ?_, ?_⟩
  · intro q hq
    simp [perc_of, F32.div, F32.clamp01, hq]
  · intro before target
    simp only [channel_should, F32.sub, F32.mul, F32.add, F32.fin.injEq]
    ring
  · intro b t c
    by_cases hct : c = t
    · simp [matches_fade, hct]
    · have hnan : perc_of 0 0 = F32.nan := by
        simp [perc_of, F32.div, F32.clamp01]
      simp only [matches_fade, hnan]
      rw [if_neg hct]
      simp only [List.all_cons, List.all_nil, Bool.and_true, Bool.and_eq_true]
      rw [channel_diveation_nan_le_iff, channel_diveation_nan_le_iff,
        channel_diveation_nan_le_iff, channel_diveation_nan_le_iff]
      constructor
      · rintro ⟨h1, h2, h3, h4⟩
        right
        obtain ⟨bh, bs, bb, bk⟩ := b
        obtain ⟨th, ts, tb, tk⟩ := t
        simp_all
      · rintro (h | h)
        · exact absurd h hct
        · subst h
          exact ⟨rfl, rfl, rfl, rfl⟩

/-- Witness for the amended claim C10 at fading_time 1, fading_target 0. -/
theorem c10_zero_duration_amended_witness :
    (0 : ℚ) < 1 ∧ perc_of 1 0 = F32.fin 1 :=
  ⟨by norm_num, c10_zero_duration_amended.1 1 (by norm_num)⟩
